import Mathlib

/-!
Verification of the eyehike link-checker pipeline
(`sitewide_link_checker.py` and `webcam_link_checker.py`).

The pure core of the two scripts is embedded shallowly:
* HTTP requests are abstracted by a `ReqOutcome` value (the response a
  `requests.head`/`requests.get` call would produce, or the exception it
  would raise);
* Python string primitives used by the scripts (`[:n]` slicing,
  `rstrip("/")`, `strip()`, `startswith`, substring membership) are
  modelled code-point-for-code-point on `String.data`;
* `check_link`, `check_all_links`, the dedup merge loop of `crawl_site`,
  the filtering loop of `extract_links_from_page`, and
  `parse_sitemap_index` are translated directly from the source.
-/

set_option autoImplicit false

namespace LinkChecker

/-- Python slicing `s[:n]` on code points. -/
def pySlice (s : String) (n : Nat) : String := ⟨s.data.take n⟩

/-- Python `s.rstrip("/")`: remove every trailing `'/'` character. -/
def pyRstripSlash (s : String) : String :=
  ⟨(s.data.reverse.dropWhile (fun c => c = '/')).reverse⟩

/-- Python `s.strip()`: remove leading and trailing whitespace. -/
def pyStrip (s : String) : String :=
  ⟨((s.data.dropWhile Char.isWhitespace).reverse.dropWhile Char.isWhitespace).reverse⟩

/-- Python `s.startswith(p)`. -/
def pyStartswith (s p : String) : Bool := p.data.isPrefixOf s.data

/-- Does `needle` occur as a contiguous sublist of `hay`? -/
def subListAt (needle : List Char) : List Char → Bool
  | [] => needle.isPrefixOf []
  | c :: t => needle.isPrefixOf (c :: t) || subListAt needle t

/-- Python `needle in hay` for strings (substring containment). -/
def pyInStr (needle hay : String) : Bool := subListAt needle.data hay.data

/-- Python `s.lower()` (on the ASCII domain names the scripts handle). -/
def pyLower (s : String) : String := ⟨s.data.map Char.toLower⟩

/-- The exceptions `check_link` catches, in the taxonomy of its three
`except` clauses: `requests.exceptions.ConnectionError`,
`requests.exceptions.Timeout`, and any other `Exception` (carrying its
`str(e)` rendering). -/
inductive ReqError where
  | connectionError
  | timeout
  | other (msg : String)
deriving DecidableEq, Repr

/-- The part of a `requests` response object that `check_link` reads:
`r.status_code` and `r.url` (the final URL after redirect following). -/
structure Response where
  status_code : Nat
  url : String
deriving DecidableEq, Repr

/-- Outcome of one HTTP request: a response, or a raised exception. -/
abbrev ReqOutcome := Except ReqError Response

/-- The `status_code` field of a result dict is either an HTTP integer
code or a short diagnostic string. -/
inductive StatusCode where
  | code (n : Nat)
  | text (s : String)
deriving DecidableEq, Repr

/-- A candidate entry handed to `check_link`: the dict built by
`extract_links_from_page` plus the `site` key added by `crawl_site`. -/
structure Entry where
  url : String
  label : String
  page_url : String
  page_title : String
  site : String
deriving DecidableEq, Repr

/-- The result dict produced by `check_link`: a copy of the entry plus
`checked_at`, `status`, `status_code`, `final_url`. -/
structure CheckResult where
  url : String
  label : String
  page_url : String
  page_title : String
  site : String
  checked_at : String
  status : String
  status_code : StatusCode
  final_url : String
deriving DecidableEq, Repr

/-- The `try` body of `check_link`: `requests.head(...)`, then if the
status code is in `(405, 403, 501)` a fallback `requests.get(...)`.
`head` is the outcome of the HEAD request and `get` the outcome the
fallback GET would have; an exception raised by either request falls
through to the `except` clauses. -/
def effectiveResponse (head get : ReqOutcome) : ReqOutcome :=
  match head with
  | .ok r => if r.status_code ∈ [405, 403, 501] then get else .ok r
  | .error err => .error err

/-- The classification section of `check_link`: turn the outcome of the
request phase into the result dict (`result = entry.copy()` plus the
four outcome fields). -/
def classifyOutcome (entry : Entry) (checked_at : String) (attempt : ReqOutcome) : CheckResult :=
  let base : CheckResult :=
    { url := entry.url, label := entry.label, page_url := entry.page_url,
      page_title := entry.page_title, site := entry.site,
      checked_at := checked_at, status := "", status_code := StatusCode.text "",
      final_url := "" }
  match attempt with
  | .ok r =>
      let redirected : Bool := pyRstripSlash r.url != pyRstripSlash entry.url
      if 200 ≤ r.status_code ∧ r.status_code < 400 then
        { base with
            status := if redirected then "REDIRECT" else "OK",
            status_code := StatusCode.code r.status_code,
            final_url := if redirected then r.url else "" }
      else
        { base with
            status := "BROKEN",
            status_code := StatusCode.code r.status_code,
            final_url := "" }
  | .error .connectionError =>
      { base with
          status := "BROKEN",
          status_code := StatusCode.text "Connection Error",
          final_url := "" }
  | .error .timeout =>
      { base with
          status := "TIMEOUT",
          status_code := StatusCode.text "Timeout",
          final_url := "" }
  | .error (.other msg) =>
      { base with
          status := "ERROR",
          status_code := StatusCode.text (pySlice msg 60),
          final_url := "" }

/-- `check_link(entry)` of both scripts, with the network abstracted:
`head` is the outcome of the initial `requests.head` call and `get` the
outcome the fallback `requests.get` call would have if reached.
`checked_at` stands for `datetime.utcnow().isoformat() + "Z"`. -/
def check_link (entry : Entry) (checked_at : String) (head get : ReqOutcome) : CheckResult :=
  classifyOutcome entry checked_at (effectiveResponse head get)

/-- The severity map of `check_all_links`:
`order = {"BROKEN": 0, "TIMEOUT": 1, "ERROR": 2, "REDIRECT": 3, "OK": 4}`
with `order.get(status, 5)`. -/
def statusOrder (s : String) : Nat :=
  if s = "BROKEN" then 0
  else if s = "TIMEOUT" then 1
  else if s = "ERROR" then 2
  else if s = "REDIRECT" then 3
  else if s = "OK" then 4
  else 5

/-- The comparison induced by the sort key of `check_all_links` in
`sitewide_link_checker.py`: the Python tuple
`(r.get("site", ""), order.get(r["status"], 5))` compared
lexicographically. -/
def keyLE (a b : CheckResult) : Bool :=
  decide (a.site < b.site ∨ (a.site = b.site ∧ statusOrder a.status ≤ statusOrder b.status))

/-- `check_all_links(links)` after the concurrent collection phase:
`results` is the list in future-completion order and
`results.sort(key=...)` is Python's stable sort, i.e. a merge sort on
the key comparison. -/
def check_all_links (results : List CheckResult) : List CheckResult :=
  results.mergeSort keyLE

/-- The dict built by `extract_links_from_page` for one kept link
(before `crawl_site` adds the `site` key). -/
structure RawLink where
  url : String
  label : String
  page_url : String
  page_title : String
deriving DecidableEq, Repr

/-- `link["site"] = site["name"]` performed by `crawl_site` on a kept
link. -/
def toEntry (site : String) (l : RawLink) : Entry :=
  { url := l.url, label := l.label, page_url := l.page_url,
    page_title := l.page_title, site := site }

/-- The merge loop of `crawl_site`: iterate over the pages' link lists
(in future-completion order), keeping a link only if its `url` was not
seen before, tagging it with the site name. The accumulator is the pair
`(all_links, seen_urls)`. -/
def crawlMergeStep (site : String) (acc : List Entry × List String) (link : RawLink) :
    List Entry × List String :=
  if link.url ∈ acc.2 then acc
  else (acc.1 ++ [toEntry site link], link.url :: acc.2)

/-- The link set `crawl_site` returns, given the per-page extraction
results `pages` (one list per crawled page, in completion order). -/
def crawl_site (site : String) (pages : List (List RawLink)) : List Entry :=
  (pages.flatten.foldl (crawlMergeStep site) ([], [])).1

/-- One `<a href=...>` tag as `extract_links_from_page` sees it:
`tag["href"]` and `tag.get_text(strip=True)`. -/
structure Anchor where
  href : String
  text : String
deriving DecidableEq, Repr

/-- `GLOBAL_SKIP_DOMAINS` of `sitewide_link_checker.py`. -/
def GLOBAL_SKIP_DOMAINS : List String :=
  ["wordpress.org", "www.elegantthemes.com", "elegantthemes.com",
   "schema.org", "www.w3.org", "fonts.googleapis.com", "fonts.gstatic.com"]

/-- Characters allowed after the first one in a URL scheme, as in
`urllib.parse`. -/
def schemeChar (c : Char) : Bool := c.isAlphanum || c = '+' || c = '-' || c = '.'

/-- `urlparse(href).netloc`: strip a well-formed `scheme:` prefix, then
if the remainder starts with `//`, the netloc runs up to the next
`/`, `?` or `#`; otherwise it is empty. -/
def pyUrlparseNetloc (url : String) : String :=
  let l := url.data
  let rest :=
    match l.findIdx? (fun c => c = ':') with
    | some i =>
        let sch := l.take i
        if sch ≠ [] ∧ sch.head?.all Char.isAlpha ∧ sch.all schemeChar then
          l.drop (i + 1)
        else l
    | none => l
  match rest with
  | '/' :: '/' :: r => ⟨r.takeWhile (fun c => ¬ (c = '/' ∨ c = '?' ∨ c = '#'))⟩
  | _ => ""

/-- The filtering loop of `extract_links_from_page` (and, with the
appropriate skip set, of `scrape_links`): `anchors` are the
`soup.find_all("a", href=True)` tags of the fetched page,
`page_title_tag` is the text of the page's `<title>` element when
present. The accumulator is the pair `(links, seen)`. -/
def extractStep (page_url page_title : String) (all_skip : List String)
    (acc : List RawLink × List String) (a : Anchor) : List RawLink × List String :=
  let href := pyStrip a.href
  let label := if pySlice a.text 80 = "" then pySlice href 80 else pySlice a.text 80
  if ¬ pyStartswith href "http" then acc
  else if pyLower (pyUrlparseNetloc href) ∈ all_skip then acc
  else if href ∈ acc.2 then acc
  else (acc.1 ++ [⟨href, label, page_url, page_title⟩], href :: acc.2)

/-- `extract_links_from_page(page_url, skip_domains)` with the page
fetch abstracted: the anchors and title of the fetched HTML are inputs. -/
def extract_links_from_page (page_url : String) (page_title_tag : Option String)
    (skip_domains : List String) (anchors : List Anchor) : List RawLink :=
  let all_skip := skip_domains ++ GLOBAL_SKIP_DOMAINS
  let page_title :=
    match page_title_tag with
    | some t => pySlice t 80
    | none => page_url
  (anchors.foldl (extractStep page_url page_title all_skip) ([], [])).1

/-- One `<sitemap>` element of a sitemap index;
`findtext("sm:loc")` is `none` when the `<loc>` child is absent. -/
structure SitemapEntry where
  loc : Option String
deriving DecidableEq, Repr

/-- A parsed sitemap index document: its `<sitemap>` elements. -/
structure IndexDoc where
  sitemaps : List SitemapEntry
deriving DecidableEq, Repr

/-- One `<url>` element of a sub-sitemap. -/
structure UrlEntry where
  loc : Option String
deriving DecidableEq, Repr

/-- A parsed sub-sitemap document: its `<url>` elements. -/
structure SubDoc where
  urls : List UrlEntry
deriving DecidableEq, Repr

/-- Outcome of fetching and parsing one XML document:
`fetchError` = `requests.get` raised or `raise_for_status()` fired;
`badXml` = the body was retrieved but `ET.fromstring` raises
`ParseError`; `parsed d` = well-formed document `d`. -/
inductive Fetched (α : Type) where
  | fetchError
  | badXml
  | parsed (d : α)

/-- `parse_sitemap_index(sitemap_url, filter_list)` with the network
abstracted: `index` is the outcome for the index document and
`subFetch` the outcome for each sub-sitemap URL. The index fetch is
guarded by `try/except`, but `ET.fromstring(r.text)` on the index body
is outside the `try`: a malformed index propagates `ParseError`
(modelled as `.error`). Each sub-sitemap fetch+parse is inside its own
`try` and a failure there only skips that sub-sitemap. -/
def parse_sitemap_index (filter_list : List String) (index : Fetched IndexDoc)
    (subFetch : String → Fetched SubDoc) : Except String (List String) :=
  match index with
  | .fetchError => .ok []
  | .badXml => .error "xml.etree.ElementTree.ParseError"
  | .parsed d =>
      let sub_sitemaps := d.sitemaps.filterMap (fun sm =>
        let loc := sm.loc.getD ""
        if filter_list.any (fun f => pyInStr f loc) then some loc else none)
      .ok (sub_sitemaps.foldl (fun page_urls su =>
        match subFetch su with
        | .parsed d2 =>
            page_urls ++ d2.urls.filterMap (fun u =>
              match u.loc with
              | some s => if s = "" then none else some s
              | none => none)
        | _ => page_urls) [])

/-- Modelled from the spec: the redirect criterion as section 4.4 words
it, "ignoring a single trailing slash" — remove at most one trailing
`'/'` before comparing. The source instead uses `rstrip("/")`, which
removes every trailing slash; this definition exists only to compare
the two criteria. -/
def stripOneTrailingSlash (s : String) : String :=
  match s.data.getLast? with
  | some '/' => ⟨s.data.dropLast⟩
  | _ => s

/-! ### Helper lemmas -/

/-- The five statuses a classification can produce. -/
theorem classifyOutcome_status_mem (e : Entry) (ts : String) (o : ReqOutcome) :
    (classifyOutcome e ts o).status ∈ ["OK", "REDIRECT", "BROKEN", "TIMEOUT", "ERROR"] := by
  rcases o with err | r
  · rcases err with _ | _ | m <;> simp [classifyOutcome]
  · by_cases h : 200 ≤ r.status_code ∧ r.status_code < 400 <;>
      by_cases hq : pyRstripSlash r.url = pyRstripSlash e.url <;>
        simp [classifyOutcome, h, hq]

/-- Classification copies every entry field and records the timestamp. -/
theorem classifyOutcome_fields (e : Entry) (ts : String) (o : ReqOutcome) :
    (classifyOutcome e ts o).url = e.url ∧
    (classifyOutcome e ts o).label = e.label ∧
    (classifyOutcome e ts o).page_url = e.page_url ∧
    (classifyOutcome e ts o).page_title = e.page_title ∧
    (classifyOutcome e ts o).site = e.site ∧
    (classifyOutcome e ts o).checked_at = ts := by
  rcases o with err | r
  · rcases err with _ | _ | m <;> simp [classifyOutcome]
  · by_cases h : 200 ≤ r.status_code ∧ r.status_code < 400 <;>
      by_cases hq : pyRstripSlash r.url = pyRstripSlash e.url <;>
        simp [classifyOutcome, h, hq]

/-- A slice `s[:n]` has at most `n` characters. -/
theorem pySlice_length_le (s : String) (n : Nat) : (pySlice s n).length ≤ n := by
  show (s.data.take n).length ≤ n
  rw [List.length_take]
  exact Nat.min_le_left _ _

/-! ### C1 -/

/-- C1: for every candidate entry and every behavior of the two HTTP
requests — including every exception class — `check_link` produces a
`CheckResult` whose `status` is one of `OK`, `REDIRECT`, `BROKEN`,
`TIMEOUT`, `ERROR`; as a total Lean function it raises nothing past its
boundary, so the orchestrator needs no per-item exception handling. -/
theorem check_link_never_raises (e : Entry) (ts : String) (head get : ReqOutcome) :
    (check_link e ts head get).status ∈ ["OK", "REDIRECT", "BROKEN", "TIMEOUT", "ERROR"] :=
  classifyOutcome_status_mem e ts (effectiveResponse head get)

/-! ### C2 -/

/-- C2: a timeout on the first attempt, or on the fallback attempt after
a 403 HEAD, yields status `TIMEOUT` with status code `"Timeout"`; a
connection-level error yields `BROKEN` with `"Connection Error"`; any
other exception yields `ERROR` with `str(e)` truncated to at most 60
characters as the status code. -/
theorem check_link_failure_classes (e : Entry) (ts : String) (g : ReqOutcome) (m u : String) :
    ((check_link e ts (.error .timeout) g).status = "TIMEOUT" ∧
      (check_link e ts (.error .timeout) g).status_code = StatusCode.text "Timeout") ∧
    ((check_link e ts (.ok ⟨403, u⟩) (.error .timeout)).status = "TIMEOUT" ∧
      (check_link e ts (.ok ⟨403, u⟩) (.error .timeout)).status_code = StatusCode.text "Timeout") ∧
    ((check_link e ts (.error .connectionError) g).status = "BROKEN" ∧
      (check_link e ts (.error .connectionError) g).status_code =
        StatusCode.text "Connection Error") ∧
    ((check_link e ts (.error (.other m)) g).status = "ERROR" ∧
      (check_link e ts (.error (.other m)) g).status_code = StatusCode.text (pySlice m 60) ∧
      (pySlice m 60).length ≤ 60) := by
  refine ⟨⟨?_, ?_⟩, ⟨?_, ?_⟩, ⟨?_, ?_⟩, ⟨?_, ?_, pySlice_length_le m 60⟩⟩ <;>
    simp [check_link, effectiveResponse, classifyOutcome]

/-! ### C10 -/

/-- C10: `check_link` operates on a copy of its input entry (the model
is pure, mirroring `entry.copy()`), and every field of the input entry —
url, label, page context fields, site name — appears unchanged in the
returned `CheckResult`; the only fields added are `checked_at` (set to
the timestamp), `status`, `status_code` and `final_url`. -/
theorem check_link_preserves_entry (e : Entry) (ts : String) (head get : ReqOutcome) :
    (check_link e ts head get).url = e.url ∧
    (check_link e ts head get).label = e.label ∧
    (check_link e ts head get).page_url = e.page_url ∧
    (check_link e ts head get).page_title = e.page_title ∧
    (check_link e ts head get).site = e.site ∧
    (check_link e ts head get).checked_at = ts :=
  classifyOutcome_fields e ts (effectiveResponse head get)

/-! ### C5 -/

/-- C5: when the HEAD probe answers 405, 403 or 501, `check_link`
retries once with the body-capable GET and classifies purely from that
retry's outcome; in particular a link answering 403 to HEAD but 200 to
GET (with no redirect) is classified `OK`. -/
theorem check_link_fallback_get (e : Entry) (ts : String) (get : ReqOutcome) (r : Response)
    (hcode : r.status_code ∈ [405, 403, 501]) :
    check_link e ts (.ok r) get = classifyOutcome e ts get ∧
    ∀ u : String, (check_link e ts (.ok ⟨403, u⟩) (.ok ⟨200, e.url⟩)).status = "OK" := by
  constructor
  · simp [check_link, effectiveResponse, hcode]
  · intro u
    simp [check_link, effectiveResponse, classifyOutcome]

/-- Witness for C5 at a concrete input: HEAD answers 403, GET answers
200 with no redirect, and the link is classified `OK`. -/
theorem check_link_fallback_get_witness :
    (check_link ⟨"https://a", "l", "p", "t", "S"⟩ "ts"
      (.ok ⟨403, "https://a"⟩) (.ok ⟨200, "https://a"⟩)).status = "OK" :=
  (check_link_fallback_get ⟨"https://a", "l", "p", "t", "S"⟩ "ts"
    (.ok ⟨200, "https://a"⟩) ⟨403, "https://a"⟩ (by decide)).2 "https://a"

/-! ### C3 -/

/-- A concrete entry whose url carries two trailing slashes. -/
def entryX : Entry :=
  { url := "https://x//", label := "l", page_url := "p", page_title := "t", site := "S" }

/-- A concrete response: HTTP 200, final URL with one trailing slash. -/
def respX : Response := { status_code := 200, url := "https://x/" }

/-- C3 counterexample: with original url `"https://x//"` and final url
`"https://x/"` (HTTP 200), the two URLs still differ after ignoring a
single trailing slash, yet the code classifies the link `OK`, because
`rstrip("/")` removes every trailing slash; so "REDIRECT exactly when
the final URL, ignoring a single trailing slash, differs" is false. -/
theorem redirect_single_slash_counterexample :
    ¬ (((check_link entryX "ts" (.ok respX) (.ok respX)).status = "REDIRECT") ↔
        stripOneTrailingSlash respX.url ≠ stripOneTrailingSlash entryX.url) := by
  decide

/-- C3 amended: for a final HTTP status in `[200, 400)`, `check_link`
classifies `REDIRECT` exactly when the final URL and the original URL
differ after stripping all trailing slashes (Python `rstrip("/")`), and
`OK` otherwise; `final_url` is non-empty only in the `REDIRECT` case,
where it records the post-redirect URL. -/
theorem check_link_redirect_criterion (e : Entry) (ts : String) (head get : ReqOutcome)
    (r : Response) (hr : effectiveResponse head get = .ok r)
    (h2 : 200 ≤ r.status_code) (h4 : r.status_code < 400) :
    ((check_link e ts head get).status = "REDIRECT" ↔
      pyRstripSlash r.url ≠ pyRstripSlash e.url) ∧
    ((check_link e ts head get).status = "REDIRECT" ∨
      (check_link e ts head get).status = "OK") ∧
    ((check_link e ts head get).final_url ≠ "" → (check_link e ts head get).status = "REDIRECT") ∧
    ((check_link e ts head get).status = "REDIRECT" →
      (check_link e ts head get).final_url = r.url) := by
  unfold check_link
  rw [hr]
  by_cases hq : pyRstripSlash r.url = pyRstripSlash e.url <;>
    simp [classifyOutcome, h2, h4, hq]

/-- Witness for the amended C3: a 200 response whose final URL differs
from the original is classified `REDIRECT` with `final_url` recorded. -/
theorem check_link_redirect_criterion_witness :
    (check_link ⟨"https://a", "l", "p", "t", "S"⟩ "ts"
      (.ok ⟨200, "https://b"⟩) (.ok ⟨200, "https://b"⟩)).status = "REDIRECT" :=
  ((check_link_redirect_criterion ⟨"https://a", "l", "p", "t", "S"⟩ "ts"
    (.ok ⟨200, "https://b"⟩) (.ok ⟨200, "https://b"⟩) ⟨200, "https://b"⟩
    rfl (by decide) (by decide)).1).mpr (by decide)

/-! ### C4 -/

/-- If the outcome's response (when there is one) has a non-empty url,
the classification records a non-empty `final_url` exactly on
`REDIRECT`. -/
theorem classifyOutcome_final_url_iff (e : Entry) (ts : String) (o : ReqOutcome)
    (ho : ∀ r : Response, o = .ok r → r.url ≠ "") :
    (classifyOutcome e ts o).final_url ≠ "" ↔ (classifyOutcome e ts o).status = "REDIRECT" := by
  rcases o with err | r
  · rcases err with _ | _ | m <;> simp [classifyOutcome]
  · by_cases h : 200 ≤ r.status_code ∧ r.status_code < 400 <;>
      by_cases hq : pyRstripSlash r.url = pyRstripSlash e.url <;>
        simp [classifyOutcome, h, hq, ho r rfl]

/-- C4: assuming the HTTP layer reports a non-empty final URL (as
`requests` always does), every `CheckResult` of `check_link` has one of
the five statuses and its `final_url` is non-empty exactly when the
status is `REDIRECT`. -/
theorem check_result_status_final_url (e : Entry) (ts : String) (head get : ReqOutcome)
    (hh : ∀ r : Response, head = .ok r → r.url ≠ "")
    (hg : ∀ r : Response, get = .ok r → r.url ≠ "") :
    (check_link e ts head get).status ∈ ["OK", "REDIRECT", "BROKEN", "TIMEOUT", "ERROR"] ∧
    ((check_link e ts head get).final_url ≠ "" ↔
      (check_link e ts head get).status = "REDIRECT") := by
  refine ⟨classifyOutcome_status_mem e ts _, ?_⟩
  apply classifyOutcome_final_url_iff
  intro r hr
  unfold effectiveResponse at hr
  rcases head with err | r0
  · exact absurd hr (by simp)
  · by_cases hc : r0.status_code ∈ [405, 403, 501]
    · exact hg r (by simpa [hc] using hr)
    · have : r0 = r := by simpa [hc] using hr
      exact this ▸ hh r0 rfl

/-- Witness for C4 at a concrete input: a 200 response with no redirect
gives status `OK` and empty `final_url`. -/
theorem check_result_status_final_url_witness :
    (check_link ⟨"https://a", "l", "p", "t", "S"⟩ "ts"
        (.ok ⟨200, "https://a"⟩) (.ok ⟨200, "https://a"⟩)).status ∈
      ["OK", "REDIRECT", "BROKEN", "TIMEOUT", "ERROR"] ∧
    ((check_link ⟨"https://a", "l", "p", "t", "S"⟩ "ts"
        (.ok ⟨200, "https://a"⟩) (.ok ⟨200, "https://a"⟩)).final_url ≠ "" ↔
      (check_link ⟨"https://a", "l", "p", "t", "S"⟩ "ts"
        (.ok ⟨200, "https://a"⟩) (.ok ⟨200, "https://a"⟩)).status = "REDIRECT") :=
  check_result_status_final_url ⟨"https://a", "l", "p", "t", "S"⟩ "ts"
    (.ok ⟨200, "https://a"⟩) (.ok ⟨200, "https://a"⟩)
    (by intro r h; cases h; decide) (by intro r h; cases h; decide)

/-! ### C6 -/

/-- The sort comparison of `check_all_links` is total. -/
theorem keyLE_total (a b : CheckResult) : keyLE a b || keyLE b a := by
  simp only [keyLE, Bool.or_eq_true, decide_eq_true_eq]
  rcases lt_trichotomy a.site b.site with h | h | h
  · exact Or.inl (Or.inl h)
  · by_cases hn : statusOrder a.status ≤ statusOrder b.status
    · exact Or.inl (Or.inr ⟨h, hn⟩)
    · exact Or.inr (Or.inr ⟨h.symm, le_of_not_le hn⟩)
  · exact Or.inr (Or.inl h)

/-- The sort comparison of `check_all_links` is transitive. -/
theorem keyLE_trans (a b c : CheckResult) : keyLE a b → keyLE b c → keyLE a c := by
  simp only [keyLE, decide_eq_true_eq]
  rintro (hab | ⟨hab, hab2⟩) (hbc | ⟨hbc, hbc2⟩)
  · exact Or.inl (lt_trans hab hbc)
  · exact Or.inl (hbc ▸ hab)
  · exact Or.inl (hab ▸ hbc)
  · exact Or.inr ⟨hab.trans hbc, le_trans hab2 hbc2⟩

/-- C6: `check_all_links` returns a permutation of its input sorted by
site name ascending, then severity rank
`BROKEN < TIMEOUT < ERROR < REDIRECT < OK`; within one site group a
result of lower rank appears before one of higher rank, and the sort is
stable: any selection of input results with pairwise-equal keys
reappears in the output in its original relative order. -/
theorem check_all_links_ordering (l : List CheckResult) :
    (check_all_links l).Perm l ∧
    (check_all_links l).Pairwise (fun a b =>
      a.site < b.site ∨ (a.site = b.site ∧ statusOrder a.status ≤ statusOrder b.status)) ∧
    (∀ (i j : Fin (check_all_links l).length), i < j →
      ((check_all_links l).get i).site = ((check_all_links l).get j).site →
      statusOrder ((check_all_links l).get i).status ≤
        statusOrder ((check_all_links l).get j).status) ∧
    (∀ c : List CheckResult, c.Sublist l →
      c.Pairwise (fun a b => a.site = b.site ∧ statusOrder a.status = statusOrder b.status) →
      c.Sublist (check_all_links l)) := by
  have hpair : (check_all_links l).Pairwise (fun a b =>
      a.site < b.site ∨ (a.site = b.site ∧ statusOrder a.status ≤ statusOrder b.status)) := by
    have := List.sorted_mergeSort keyLE_trans keyLE_total l
    exact this.imp (fun h => by simpa [keyLE] using h)
  refine ⟨List.mergeSort_perm l keyLE, hpair, ?_, ?_⟩
  · intro i j hij hsite
    rcases List.pairwise_iff_get.mp hpair i j hij with h | ⟨_, h⟩
    · exact absurd (hsite ▸ h) (lt_irrefl _)
    · exact h
  · intro c hsub hpw
    refine List.sublist_mergeSort keyLE_trans keyLE_total ?_ hsub
    exact hpw.imp (fun ⟨h1, h2⟩ => by simp [keyLE, h1, h2.le])

/-- A concrete `OK` result for site `A`. -/
def resultOK : CheckResult :=
  { url := "u1", label := "l", page_url := "p", page_title := "t", site := "A",
    checked_at := "ts", status := "OK", status_code := StatusCode.code 200, final_url := "" }

/-- A concrete `BROKEN` result for site `A`. -/
def resultBroken : CheckResult :=
  { url := "u2", label := "l", page_url := "p", page_title := "t", site := "A",
    checked_at := "ts", status := "BROKEN", status_code := StatusCode.code 404, final_url := "" }

/-- Witness for C6 at a concrete input: the stability clause applied to
the singleton selection `[resultBroken]` of `[resultOK, resultBroken]`. -/
theorem check_all_links_ordering_witness :
    [resultBroken].Sublist (check_all_links [resultOK, resultBroken]) :=
  (check_all_links_ordering [resultOK, resultBroken]).2.2.2 [resultBroken]
    (List.Sublist.cons resultOK (List.Sublist.refl _)) (List.pairwise_singleton _ _)

/-! ### C7 -/

/-- The merge loop only ever appends to the collected link list. -/
theorem crawlMerge_extends (site : String) (ll : List RawLink) :
    ∀ acc : List Entry × List String,
      ∃ tail, (ll.foldl (crawlMergeStep site) acc).1 = acc.1 ++ tail := by
  induction ll with
  | nil => exact fun acc => ⟨[], by simp⟩
  | cons x xs ih =>
      intro acc
      rw [List.foldl_cons]
      by_cases hmem : x.url ∈ acc.2
      · have hstep : crawlMergeStep site acc x = acc := by simp [crawlMergeStep, hmem]
        rw [hstep]
        exact ih acc
      · have hstep : crawlMergeStep site acc x =
            (acc.1 ++ [toEntry site x], x.url :: acc.2) := by
          simp [crawlMergeStep, hmem]
        rw [hstep]
        obtain ⟨tail, htail⟩ := ih (acc.1 ++ [toEntry site x], x.url :: acc.2)
        exact ⟨toEntry site x :: tail, by simpa using htail⟩

/-- Invariant of the merge loop of `crawl_site`: given that the seen
set mirrors the urls already collected and those urls are distinct, the
final collection has distinct urls, every newly collected entry is the
first link of the stream with its url (tagged with the site name), and
every stream link's url is represented. -/
theorem crawlMerge_invariant (site : String) (ll : List RawLink) :
    ∀ acc : List Entry × List String,
      (∀ u, u ∈ acc.2 ↔ u ∈ acc.1.map Entry.url) →
      (acc.1.map Entry.url).Nodup →
      ((((ll.foldl (crawlMergeStep site) acc).1.map Entry.url).Nodup) ∧
       (∀ e ∈ (ll.foldl (crawlMergeStep site) acc).1, e ∈ acc.1 ∨
          (e.url ∉ acc.2 ∧
            ll.find? (fun l => l.url == e.url) =
              some ⟨e.url, e.label, e.page_url, e.page_title⟩ ∧
            e.site = site)) ∧
       (∀ r ∈ ll, r.url ∈ acc.2 ∨
          ∃ e ∈ (ll.foldl (crawlMergeStep site) acc).1, e.url = r.url)) := by
  induction ll with
  | nil =>
      intro acc hseen hnodup
      exact ⟨hnodup, fun e he => Or.inl he, fun r hr => absurd hr (List.not_mem_nil r)⟩
  | cons x xs ih =>
      intro acc hseen hnodup
      rw [List.foldl_cons]
      by_cases hmem : x.url ∈ acc.2
      · have hstep : crawlMergeStep site acc x = acc := by simp [crawlMergeStep, hmem]
        rw [hstep]
        obtain ⟨ih1, ih2, ih3⟩ := ih acc hseen hnodup
        refine ⟨ih1, ?_, ?_⟩
        · intro e he
          rcases ih2 e he with h | ⟨hnot, hfind, hsite⟩
          · exact Or.inl h
          · refine Or.inr ⟨hnot, ?_, hsite⟩
            have hne : (x.url == e.url) = false := by
              simp only [beq_eq_false_iff_ne, ne_eq]
              intro hx
              exact hnot (hx ▸ hmem)
            rw [List.find?_cons]
            simp [hne, hfind]
        · intro r hr
          rcases List.mem_cons.mp hr with rfl | hr'
          · exact Or.inl hmem
          · exact ih3 r hr'
      · have hstep : crawlMergeStep site acc x =
            (acc.1 ++ [toEntry site x], x.url :: acc.2) := by
          simp [crawlMergeStep, hmem]
        rw [hstep]
        have hseen' : ∀ u, u ∈ x.url :: acc.2 ↔
            u ∈ (acc.1 ++ [toEntry site x]).map Entry.url := by
          intro u
          simp only [List.mem_cons, List.map_append, List.mem_append, hseen u,
            List.map_cons, List.map_nil, toEntry, List.mem_singleton]
          tauto
        have hurlnot : x.url ∉ acc.1.map Entry.url := fun hx => hmem ((hseen x.url).mpr hx)
        have hnodup' : ((acc.1 ++ [toEntry site x]).map Entry.url).Nodup := by
          rw [List.map_append, List.nodup_append]
          refine ⟨hnodup, List.nodup_singleton _, ?_⟩
          intro u hu
          simp only [List.map_cons, List.map_nil, toEntry, List.mem_singleton]
          intro hx
          exact hurlnot (hx ▸ hu)
        obtain ⟨ih1, ih2, ih3⟩ := ih (acc.1 ++ [toEntry site x], x.url :: acc.2) hseen' hnodup'
        refine ⟨ih1, ?_, ?_⟩
        · intro e he
          rcases ih2 e he with h | ⟨hnot, hfind, hsite⟩
          · rcases List.mem_append.mp h with h' | h'
            · exact Or.inl h'
            · have hex : e = toEntry site x := List.mem_singleton.mp h'
              subst hex
              refine Or.inr ⟨hmem, ?_, rfl⟩
              rw [List.find?_cons]
              simp [toEntry]
          · have hnot1 : e.url ≠ x.url := fun hx => hnot (hx ▸ List.mem_cons_self _ _)
            have hnot2 : e.url ∉ acc.2 := fun hx => hnot (List.mem_cons_of_mem _ hx)
            refine Or.inr ⟨hnot2, ?_, hsite⟩
            have hne : (x.url == e.url) = false := by
              simp only [beq_eq_false_iff_ne, ne_eq]
              exact fun hx => hnot1 hx.symm
            rw [List.find?_cons]
            simp [hne, hfind]
        · intro r hr
          have hx_in : ∃ e ∈ (xs.foldl (crawlMergeStep site)
              (acc.1 ++ [toEntry site x], x.url :: acc.2)).1, e.url = x.url := by
            obtain ⟨tail, htail⟩ :=
              crawlMerge_extends site xs (acc.1 ++ [toEntry site x], x.url :: acc.2)
            refine ⟨toEntry site x, ?_, rfl⟩
            rw [htail]
            exact List.mem_append.mpr (Or.inl (List.mem_append.mpr (Or.inr
              (List.mem_singleton.mpr rfl))))
          rcases List.mem_cons.mp hr with rfl | hr'
          · exact Or.inr hx_in
          · rcases ih3 r hr' with h | h
            · rcases List.mem_cons.mp h with hx | hx
              · exact Or.inr (hx ▸ hx_in)
              · exact Or.inl hx
            · exact Or.inr h

/-- C7: within one site's merged link set, no two candidates share a
url; each surviving candidate is exactly the first link with its url in
the crawled stream (so its context fields come from the first page
seen), tagged with the site name; and every discovered url is
represented by exactly one survivor. -/
theorem crawl_site_unique_first_wins (site : String) (pages : List (List RawLink)) :
    ((crawl_site site pages).map Entry.url).Nodup ∧
    (∀ e ∈ crawl_site site pages,
      pages.flatten.find? (fun l => l.url == e.url) =
        some ⟨e.url, e.label, e.page_url, e.page_title⟩ ∧ e.site = site) ∧
    (∀ r ∈ pages.flatten, ∃ e ∈ crawl_site site pages, e.url = r.url) := by
  obtain ⟨h1, h2, h3⟩ := crawlMerge_invariant site pages.flatten ([], [])
    (by intro u; simp) (by simp)
  refine ⟨h1, ?_, ?_⟩
  · intro e he
    rcases h2 e he with h | ⟨_, hfind, hsite⟩
    · exact absurd h (List.not_mem_nil e)
    · exact ⟨hfind, hsite⟩
  · intro r hr
    rcases h3 r hr with h | h
    · exact absurd h (List.not_mem_nil r.url)
    · exact h

/-- Links found on a first crawled page. -/
def pageOneLinks : List RawLink :=
  [{ url := "https://cam.example/", label := "Cam A", page_url := "https://p1",
     page_title := "T1" }]

/-- Links found on a second crawled page, repeating the same url with
different context. -/
def pageTwoLinks : List RawLink :=
  [{ url := "https://cam.example/", label := "Cam B", page_url := "https://p2",
     page_title := "T2" }]

/-- Witness for C7 at a concrete input (Scenario F): the same url on
two pages — the survivor carries the first page's context. -/
theorem crawl_site_unique_first_wins_witness :
    [pageOneLinks, pageTwoLinks].flatten.find?
        (fun l => l.url == (toEntry "Site" ⟨"https://cam.example/", "Cam A", "https://p1",
          "T1"⟩).url) =
      some ⟨"https://cam.example/", "Cam A", "https://p1", "T1"⟩ ∧
    (toEntry "Site" ⟨"https://cam.example/", "Cam A", "https://p1", "T1"⟩).site = "Site" :=
  (crawl_site_unique_first_wins "Site" [pageOneLinks, pageTwoLinks]).2.1
    (toEntry "Site" ⟨"https://cam.example/", "Cam A", "https://p1", "T1"⟩) (by decide)

/-! ### C8 -/

/-- C8 counterexample: any href beginning with the characters `http`
passes the `startswith("http")` filter, whether or not it carries an
`http://`/`https://` scheme. The absolute `httpx://evil.example/cam`
(non-http(s) scheme) and the relative `httpfoo.html` (no scheme, no
`://` at all) both reach the extracted set, so neither "url starts
with http:// or https://" nor "relative targets never appear" holds. -/
theorem extract_links_scheme_counterexample :
    (extract_links_from_page "https://www.eyehike.com/p" (some "T") []
        [⟨"httpx://evil.example/cam", "Cam"⟩, ⟨"httpfoo.html", "Rel"⟩]).map RawLink.url =
      ["httpx://evil.example/cam", "httpfoo.html"] ∧
    ¬ (pyStartswith "httpx://evil.example/cam" "http://" ∨
       pyStartswith "httpx://evil.example/cam" "https://") ∧
    ¬ (pyStartswith "httpfoo.html" "http://" ∨
       pyStartswith "httpfoo.html" "https://") ∧
    ¬ pyInStr "://" "httpfoo.html" := by
  decide

/-- A single extraction step keeps the accumulated links and can only
add a link whose url passed the `startswith("http")` guard. -/
theorem extractStep_mem (pu pt : String) (sk : List String)
    (acc : List RawLink × List String) (a : Anchor) :
    ∀ r ∈ (extractStep pu pt sk acc a).1, r ∈ acc.1 ∨ pyStartswith r.url "http" := by
  intro r hr
  by_cases h1 : pyStartswith (pyStrip a.href) "http"
  · by_cases h2 : pyLower (pyUrlparseNetloc (pyStrip a.href)) ∈ sk
    · exact Or.inl (by simpa [extractStep, h1, h2] using hr)
    · by_cases h3 : pyStrip a.href ∈ acc.2
      · exact Or.inl (by simpa [extractStep, h1, h2, h3] using hr)
      · simp only [extractStep, h1, not_true_eq_false, if_false, h2, if_neg h3,
          if_neg (fun h => h2 h), List.mem_append, List.mem_singleton] at hr
        rcases hr with hr | hr
        · exact Or.inl hr
        · subst hr
          exact Or.inr h1
  · exact Or.inl (by simpa [extractStep, h1] using hr)

/-- Every entry the extraction fold collects has a url passing the
`startswith("http")` guard. -/
theorem extractStep_fold_startswith (pu pt : String) (sk : List String)
    (anchors : List Anchor) :
    ∀ acc : List RawLink × List String,
      (∀ r ∈ acc.1, pyStartswith r.url "http") →
      ∀ r ∈ (anchors.foldl (extractStep pu pt sk) acc).1, pyStartswith r.url "http" := by
  induction anchors with
  | nil => exact fun acc h => h
  | cons a as ih =>
      intro acc h
      rw [List.foldl_cons]
      apply ih
      intro r hr
      rcases extractStep_mem pu pt sk acc a r hr with h' | h'
      · exact h r h'
      · exact h'

/-- A string starting with `http` starts with none of `mailto:`,
`javascript:` or `#`. -/
theorem pyStartswith_http_excl (s : String) (h : pyStartswith s "http") :
    ¬ pyStartswith s "mailto:" ∧ ¬ pyStartswith s "javascript:" ∧ ¬ pyStartswith s "#" := by
  unfold pyStartswith at h ⊢
  rw [List.isPrefixOf_iff_prefix] at h
  obtain ⟨t, ht⟩ := h
  have hdata : "http".data = ['h', 't', 't', 'p'] := rfl
  rw [hdata] at ht
  refine ⟨?_, ?_, ?_⟩ <;>
    · rw [List.isPrefixOf_iff_prefix]
      rintro ⟨t2, ht2⟩
      rw [← ht] at ht2
      simp at ht2

/-- C8 amended: every link the extractor keeps has a url starting with
`"http"` (the source tests `href.startswith("http")`, not a full
`http://`/`https://` scheme check); consequently anchor-only,
`mailto:` and `javascript:` targets never appear in the extracted set,
while a relative href or a non-http(s)-scheme href that begins with the
characters `http` can appear. -/
theorem extract_links_startswith_http (page_url : String) (title : Option String)
    (skip : List String) (anchors : List Anchor) :
    ∀ r ∈ extract_links_from_page page_url title skip anchors,
      pyStartswith r.url "http" ∧
      ¬ pyStartswith r.url "mailto:" ∧
      ¬ pyStartswith r.url "javascript:" ∧
      ¬ pyStartswith r.url "#" := by
  intro r hr
  have hhttp : pyStartswith r.url "http" :=
    extractStep_fold_startswith page_url _ _ anchors ([], [])
      (fun r h => absurd h (List.not_mem_nil r)) r hr
  exact ⟨hhttp, pyStartswith_http_excl r.url hhttp⟩

/-- Witness for the amended C8 at a concrete input: a kept
`https://cam.example/` link starts with `http` and with none of the
excluded prefixes. -/
theorem extract_links_startswith_http_witness :
    pyStartswith (RawLink.url ⟨"https://cam.example/", "Cam", "https://p",
        "T"⟩) "http" ∧
    ¬ pyStartswith (RawLink.url ⟨"https://cam.example/", "Cam", "https://p",
        "T"⟩) "mailto:" ∧
    ¬ pyStartswith (RawLink.url ⟨"https://cam.example/", "Cam", "https://p",
        "T"⟩) "javascript:" ∧
    ¬ pyStartswith (RawLink.url ⟨"https://cam.example/", "Cam", "https://p",
        "T"⟩) "#" :=
  extract_links_startswith_http "https://p" (some "T") []
    [⟨"https://cam.example/", "Cam"⟩]
    ⟨"https://cam.example/", "Cam", "https://p", "T"⟩ (by decide)

/-! ### C9 -/

/-- C9: at the failing input — an index fetch that succeeds over HTTP
but yields malformed XML — `parse_sitemap_index` propagates the
`ET.ParseError` instead of returning an empty list (the `fromstring`
call sits outside the `try`); a failed *fetch* of the index does return
`[]`, and a failed sub-sitemap is skipped individually while the other
sub-sitemaps' page URLs are still returned. -/
theorem parse_sitemap_index_malformed_raises :
    parse_sitemap_index ["post-sitemap.xml"] Fetched.badXml (fun _ => Fetched.fetchError) =
      Except.error "xml.etree.ElementTree.ParseError" ∧
    (∀ (filter_list : List String) (subFetch : String → Fetched SubDoc),
      parse_sitemap_index filter_list Fetched.fetchError subFetch = Except.ok []) ∧
    parse_sitemap_index ["post"]
      (Fetched.parsed ⟨[⟨some "https://s/post-1.xml"⟩, ⟨some "https://s/post-2.xml"⟩]⟩)
      (fun u => if u = "https://s/post-1.xml"
        then Fetched.parsed ⟨[⟨some "https://s/a"⟩]⟩ else Fetched.badXml) =
      Except.ok ["https://s/a"] := by
  refine ⟨rfl, fun _ _ => rfl, rfl⟩

end LinkChecker
